import Mathlib

/-!
Verification development for the capt_archive_converter repository.

The definitions below are a shallow embedding of the Python source under
src/capt_archive_converter/.  Pure path manipulation (pathlib) is embedded as
string functions; the filesystem is an explicit association list threaded
through the operations; external I/O outcomes (archive libraries, the rar
command-line tool, file deletion) are inputs supplied by an `Env` record;
Python exceptions are modelled with `Except`, caught exactly where the source
catches them.  Progress and status callbacks are pure observers in the source
(their only effect is emission); the progress arithmetic is embedded, the
plumbing of status strings is not.  All definitions are structural so that
concrete runs evaluate by `decide`.
-/

/- ### Pathlib fragment (pure string functions).

`pathParts`, `pathName`, `suffixOfName` and `with_suffix` embed the pathlib
operations the source uses on entry names and file paths: `Path(p).parts`,
`Path(p).name`, `Path(p).suffix` (the suffix starts at the last dot of the
final component, provided that dot is strictly inside the component), and
`Path(p).with_suffix(s)`.  Lowercasing is ASCII (all strings the source
compares after `.lower()` are ASCII literals). -/

def lowerChar (c : Char) : Char :=
  if 65 ≤ c.toNat ∧ c.toNat ≤ 90 then Char.ofNat (c.toNat + 32) else c

def strLower (s : String) : String :=
  String.mk (s.toList.map lowerChar)

def splitOnSlash : List Char → List (List Char)
  | [] => [[]]
  | c :: cs =>
    let r := splitOnSlash cs
    if c = '/' then [] :: r
    else
      match r with
      | [] => [[c]]
      | h :: t => (c :: h) :: t

def pathParts (p : String) : List String :=
  ((splitOnSlash p.toList).map String.mk).filter (fun s => s ≠ "" && s ≠ ".")

def pathName (p : String) : String :=
  (pathParts p).getLast?.getD ""

def lastIdxOf (c : Char) : List Char → Option Nat
  | [] => none
  | x :: xs =>
    match lastIdxOf c xs with
    | some i => some (i + 1)
    | none => if x = c then some 0 else none

def suffixOfName (nm : String) : String :=
  match lastIdxOf '.' nm.toList with
  | some i =>
    if 0 < i ∧ i + 1 < nm.toList.length then String.mk (nm.toList.drop i) else ""
  | none => ""

def suffixOfPath (p : String) : String :=
  suffixOfName (pathName p)

def with_suffix (p : String) (s : String) : String :=
  String.mk (p.toList.take (p.toList.length - (suffixOfPath p).toList.length)) ++ s

/- ### Format detection (utils/arc_convert_util.py, detect_archive_format).

A `FileProbe` is what the detector can observe about one path: the pathlib
suffix (a pure computation, never raises) and the two structural checks
`zipfile.is_zipfile` / `rarfile.is_rarfile`, each of which either returns a
Bool or raises (`Except.error`); for a missing path both checks raise
FileNotFoundError.  The source wraps the whole body in try/except and returns
None on any exception, so the detector is total. -/

inductive Format
  | CBZ
  | CBR
  | PDF
deriving DecidableEq, Repr

def Format.str : Format → String
  | .CBZ => "CBZ"
  | .CBR => "CBR"
  | .PDF => "PDF"

structure FileProbe where
  suffix : String
  zipCheck : Except Unit Bool
  rarCheck : Except Unit Bool

def detect_archive_format (f : FileProbe) : Option Format :=
  if strLower f.suffix = ".pdf" then some Format.PDF
  else
    match f.zipCheck with
    | Except.error _ => none
    | Except.ok true => some Format.CBZ
    | Except.ok false =>
      match f.rarCheck with
      | Except.error _ => none
      | Except.ok true => some Format.CBR
      | Except.ok false => none

/- ### Per-file progress normalizer (utils/arc_conv_helpers.py,
create_per_file_progress_callback).

The nested Python callback computes
`percent = min(100, max(0, int((current / total) * 100)))` when `total > 0`
and `0` otherwise, then caps a raw 100 down to 99 unless `is_last_file`, and
forwards `(percent, 100)` to the base callback when one is present.  Python's
`int()` truncates toward zero; with the float arithmetic idealized as exact,
`int((current / total) * 100)` is the zero-truncated quotient
`Int.div (current * 100) total`. -/

def raw_percent (current total : Int) : Int :=
  if 0 < total then min 100 (max 0 (Int.tdiv (current * 100) total))
  else 0

def callback_percent (is_last_file : Bool) (current total : Int) : Int :=
  let percent := raw_percent current total
  if is_last_file = false ∧ percent = 100 then 99 else percent

set_option linter.unusedVariables false

def create_per_file_progress_callback (hasSink : Bool) (file_index : Nat)
    (total_files : Nat) (is_last_file : Bool) :
    Int → Int → Option (Int × Int) :=
  fun current total =>
    if hasSink then some (callback_percent is_last_file current total, 100)
    else none

/-- Truncation toward zero of a rational, Python's `int()` on a float. -/
def truncQ (q : ℚ) : Int :=
  if 0 ≤ q then ⌊q⌋ else ⌈q⌉

/-- The percentage formula as claim C5 words it: arithmetic rounding to the
nearest integer instead of truncation.  Stated from the spec, for comparison
with `raw_percent`. -/
def round_percent_spec (current total : Int) : Int :=
  if 0 < total then
    min 100 (max 0 (round ((100 * (current : ℚ)) / (total : ℚ))))
  else 0

/- ### Archive validation (utils/arc_convert_util.py, validate_comic_archive
and the three private validators).

An archive `Entry` is one stored name together with the outcome of
`getinfo(name).file_size`, which the source wraps in its own try/except and
silently skips on failure.  Opening the container and listing its entries
(`ZipFile`/`RarFile` construction plus `namelist()`) can raise; this happens
before any entry is processed, and is the `Except.error` case.  A `VFile`
bundles everything validation can observe about one path.  The per-entry loop
body itself is pure (string classification and arithmetic), matching the
source where only the size lookup is fallible. -/

structure Entry where
  name : String
  sizeLookup : Except Unit Nat

structure VFile where
  probe : FileProbe
  zipEntries : Except Unit (List Entry)
  rarEntries : Except Unit (List Entry)
  pdfPages : Except Unit Nat
  fileSize : Nat

structure ValidationDetails where
  image_count : Nat
  has_metadata : Bool
  has_folders : Bool
  image_files : List String
  total_size : Nat
deriving DecidableEq, Repr

def emptyDetails : ValidationDetails :=
  { image_count := 0, has_metadata := false, has_folders := false
    image_files := [], total_size := 0 }

def supported_image_extensions : List String :=
  [".jpg", ".jpeg", ".png", ".gif", ".bmp", ".tiff", ".webp"]

/-- One iteration of the entry loop shared verbatim by the ZIP and RAR
validators (lines 138-151 and 172-185 of arc_convert_util.py). -/
def processEntry (d : ValidationDetails) (e : Entry) : ValidationDetails :=
  let d := if strLower (pathName e.name) = "comicinfo.xml"
    then { d with has_metadata := true } else d
  let d := if 1 < (pathParts e.name).length
    then { d with has_folders := true } else d
  if supported_image_extensions.contains (strLower (suffixOfPath e.name)) then
    let d := { d with image_count := d.image_count + 1
                      image_files := d.image_files ++ [e.name] }
    match e.sizeLookup with
    | Except.ok sz => { d with total_size := d.total_size + sz }
    | Except.error _ => d
  else d

def ArchiveConverter.validate_zip_archive (entries : Except Unit (List Entry)) :
    Bool × String × ValidationDetails :=
  match entries with
  | Except.error _ => (false, "CBZ", emptyDetails)
  | Except.ok es =>
    let d := es.foldl processEntry emptyDetails
    (decide (0 < d.image_count), "CBZ", d)

def ArchiveConverter.validate_rar_archive (entries : Except Unit (List Entry)) :
    Bool × String × ValidationDetails :=
  match entries with
  | Except.error _ => (false, "CBR", emptyDetails)
  | Except.ok es =>
    let d := es.foldl processEntry emptyDetails
    (decide (0 < d.image_count), "CBR", d)

/-- `_validate_pdf_file`: `fitz.open` may raise (caught, zero-valued report);
on success `image_count` is the page count and `total_size` the on-disk file
size. -/
def ArchiveConverter.validate_pdf_file (pages : Except Unit Nat) (size : Nat) :
    Bool × String × ValidationDetails :=
  match pages with
  | Except.error _ => (false, "PDF", emptyDetails)
  | Except.ok n =>
    (decide (0 < n), "PDF",
     { emptyDetails with image_count := n, total_size := size })

def ArchiveConverter.validate_comic_archive (f : VFile) :
    Bool × String × ValidationDetails :=
  match detect_archive_format f.probe with
  | none => (false, "UNKNOWN", emptyDetails)
  | some Format.CBZ => ArchiveConverter.validate_zip_archive f.zipEntries
  | some Format.CBR => ArchiveConverter.validate_rar_archive f.rarEntries
  | some Format.PDF => ArchiveConverter.validate_pdf_file f.pdfPages f.fileSize

/- ### Filesystem and environment model for the two conversion processors.

`FS` is the set of files visible to one conversion call: an association list
from path to content.  Content is what the pipelines inspect: a valid ZIP
container with its entry names, a valid RAR container, a PDF with a page
count, or unstructured bytes.  The filesystem is static during a call except
for the writes and the deletion the processors themselves perform.

`Env` supplies the outcomes of the external effects the source does not
control: whether extraction/rasterization/decoding succeeds and the raised
text when it does not, whether the rar command-line tool is installed,
whether the packing write succeeds, whether a failed packing step leaves a
partial output file behind (a ZIP/PDF file is created at open and survives a
mid-write exception; the rar tool may leave output on a non-zero exit),
whether a completed packing step's output file is still present at the later
existence check (the rar tool can exit 0 without producing the expected
file, and nothing re-checks creation — the orchestrator's existence test is
the deliberate guard), and whether `Path.unlink` on the original succeeds. -/

inductive FileContent
  | zipArchive (names : List String)
  | rarArchive (names : List String)
  | pdfDoc (pages : Nat)
  | raw
deriving DecidableEq, Repr

abbrev FS := List (String × FileContent)

def fs_lookup (fs : FS) (p : String) : Option FileContent :=
  match fs with
  | [] => none
  | (q, c) :: rest => if q = p then some c else fs_lookup rest p

def fs_exists (fs : FS) (p : String) : Bool :=
  (fs_lookup fs p).isSome

def fs_set (fs : FS) (p : String) (c : FileContent) : FS :=
  (p, c) :: fs.filter (fun e => e.1 ≠ p)

def fs_remove (fs : FS) (p : String) : FS :=
  fs.filter (fun e => e.1 ≠ p)

/-- The `FileProbe` the detector sees for path `p` of filesystem `fs`:
`zipfile.is_zipfile` / `rarfile.is_rarfile` raise FileNotFoundError on a
missing path and otherwise report whether the content parses as that
container. -/
def fileProbeOf (fs : FS) (p : String) : FileProbe :=
  { suffix := suffixOfPath p
    zipCheck :=
      match fs_lookup fs p with
      | none => Except.error ()
      | some (FileContent.zipArchive _) => Except.ok true
      | some _ => Except.ok false
    rarCheck :=
      match fs_lookup fs p with
      | none => Except.error ()
      | some (FileContent.rarArchive _) => Except.ok true
      | some _ => Except.ok false }

def fs_detect (fs : FS) (p : String) : Option Format :=
  detect_archive_format (fileProbeOf fs p)

/-- Entry names of an archive content (what extraction materializes into the
temporary directory and packing reads back). -/
def archiveNames : Option FileContent → List String
  | some (FileContent.zipArchive ns) => ns
  | some (FileContent.rarArchive ns) => ns
  | _ => []

structure Env where
  rarToolPresent : Bool
  extractOk : Bool
  extractErrMsg : String
  packOk : Bool
  packErrMsg : String
  packFailLeavesOutput : Bool
  packProducesOutput : Bool
  rarStderr : String
  fitzErrMsg : String
  unlinkOk : Bool
  unlinkErrMsg : String
deriving DecidableEq, Repr

structure ConversionResult where
  original_path : String
  converted_path : String
  success : Bool
  error_message : String
deriving DecidableEq, Repr

/- ### Packing helpers (utils/arc_conv_helpers.py).

`create_zip_archive(temp_dir, zip_path)` walks the temporary directory —
which holds exactly the extracted/rasterized files — and writes them into a
new ZIP at `zip_path`; any exception is re-raised as
"Failed to create ZIP archive: ...".  Note that it happily creates an archive
with zero entries when the directory is empty.

`create_rar_archive` first probes for the external `rar` executable by
running it bare; a FileNotFoundError there is converted to the dedicated
tool-missing RuntimeError, which the function's outer `except Exception`
then wraps once more as "Failed to create RAR archive: <tool-missing text>".
With the tool present it shells out to `rar a`; a non-zero exit raises
"RAR creation failed: <stderr>", wrapped the same way.  The function never
verifies that the output file was produced on a zero exit
(`Env.packProducesOutput`). -/

def toolMissingText : String :=
  "RAR command-line tool not found. Install Rarfile or rar package to create CBR files."

def create_zip_archive (env : Env) (fs : FS) (source_names : List String)
    (zip_path : String) : Except String Unit × FS :=
  if env.packOk then
    (Except.ok (),
     if env.packProducesOutput then fs_set fs zip_path (FileContent.zipArchive source_names)
     else fs)
  else
    (Except.error ("Failed to create ZIP archive: " ++ env.packErrMsg),
     if env.packFailLeavesOutput then fs_set fs zip_path FileContent.raw else fs)

def create_rar_archive (env : Env) (fs : FS) (source_names : List String)
    (rar_path : String) : Except String Unit × FS :=
  if env.rarToolPresent = false then
    (Except.error ("Failed to create RAR archive: " ++ toolMissingText), fs)
  else if env.packOk then
    (Except.ok (),
     if env.packProducesOutput then fs_set fs rar_path (FileContent.rarArchive source_names)
     else fs)
  else
    (Except.error ("Failed to create RAR archive: RAR creation failed: " ++ env.rarStderr),
     if env.packFailLeavesOutput then fs_set fs rar_path FileContent.raw else fs)

/- ### CBR <-> CBZ processor (processors/arc_conv_cb_proc.py). -/

/-- `ArchiveArchiveConverter.convert_archive`: validates the source (the two
raises before the `try` are unwrapped), extracts it to a temporary directory
and packs the temporary directory into the output, wrapping every exception
of the `try` block as
"Failed to convert <src> to <tgt>: ...".  Looking up `FORMAT_MAP['PDF']`
would raise KeyError('PDF') on the very first logging line. -/
def ArchiveArchiveConverter.convert_archive (env : Env) (fs : FS)
    (source_path : String) (source_format : Format) (output_path : String) :
    Except String Unit × FS :=
  match source_format with
  | Format.PDF => (Except.error "\x27PDF\x27", fs)
  | Format.CBR =>
    if fs_exists fs source_path = false then
      (Except.error ("Source CBR file not found: " ++ source_path), fs)
    else if fs_detect fs source_path ≠ some Format.CBR then
      (Except.error ("File is not a valid CBR archive: " ++ source_path), fs)
    else if env.extractOk = false then
      (Except.error ("Failed to convert CBR to CBZ: Failed to extract RAR archive: "
        ++ env.extractErrMsg), fs)
    else
      match create_zip_archive env fs (archiveNames (fs_lookup fs source_path)) output_path with
      | (Except.ok _, fs1) => (Except.ok (), fs1)
      | (Except.error e, fs1) => (Except.error ("Failed to convert CBR to CBZ: " ++ e), fs1)
  | Format.CBZ =>
    if fs_exists fs source_path = false then
      (Except.error ("Source CBZ file not found: " ++ source_path), fs)
    else if fs_detect fs source_path ≠ some Format.CBZ then
      (Except.error ("File is not a valid CBZ archive: " ++ source_path), fs)
    else if env.extractOk = false then
      (Except.error ("Failed to convert CBZ to CBR: Failed to extract ZIP archive: "
        ++ env.extractErrMsg), fs)
    else
      match create_rar_archive env fs (archiveNames (fs_lookup fs source_path)) output_path with
      | (Except.ok _, fs1) => (Except.ok (), fs1)
      | (Except.error e, fs1) => (Except.error ("Failed to convert CBZ to CBR: " ++ e), fs1)

/-- Lines 113-126 of arc_conv_cb_proc.py and the byte-identical lines 108-121
of arc_conv_pdf_proc.py: the tail of `convert_file` after the conversion
attempt.  `success` is assigned from `converted_path.exists()` before the
optional `unlink`, so an exception raised by `unlink` is caught by the
enclosing handler with `success` already `true` and only `error_message`
updated. -/
def finalize_result (env : Env) (original_path converted_path : String)
    (delete_original : Bool) (attempt : Except String Unit × FS) :
    ConversionResult × FS :=
  match attempt with
  | (Except.error msg, fs1) =>
    ({ original_path, converted_path, success := false, error_message := msg }, fs1)
  | (Except.ok _, fs1) =>
    if fs_exists fs1 converted_path then
      if delete_original then
        if env.unlinkOk then
          ({ original_path, converted_path, success := true, error_message := "" },
           fs_remove fs1 original_path)
        else
          ({ original_path, converted_path, success := true,
             error_message := env.unlinkErrMsg }, fs1)
      else
        ({ original_path, converted_path, success := true, error_message := "" }, fs1)
    else
      ({ original_path, converted_path, success := false,
         error_message := "Conversion failed: " ++ converted_path ++ " was not created." },
       fs1)

def ArchiveArchiveConverter.convert_file (env : Env) (fs : FS) (file_path : String)
    (target_format : String) (delete_original : Bool) : ConversionResult × FS :=
  let original_path := file_path
  let converted_path := with_suffix file_path ("." ++ target_format)
  match fs_detect fs original_path with
  | some sf =>
    if (target_format = "cbz" ∧ sf = Format.CBR) ∨ (target_format = "cbr" ∧ sf = Format.CBZ) then
      finalize_result env original_path converted_path delete_original
        (ArchiveArchiveConverter.convert_archive env fs original_path sf converted_path)
    else
      ({ original_path, converted_path, success := false,
         error_message := "Unsupported conversion type or file extension." }, fs)
  | none =>
    ({ original_path, converted_path, success := false,
       error_message := "Unsupported conversion type or file extension." }, fs)

/-- `ArchiveArchiveConverter.convert_batch`: iterates the list in order,
appending each file's `convert_file` result; the per-file progress and
prefixed status callbacks it builds are observers with no bearing on results
or filesystem. -/
def ArchiveArchiveConverter.convert_batch (env : Env) (fs : FS) (file_paths : List String)
    (target_format : String) (delete_original : Bool) : List ConversionResult × FS :=
  match file_paths with
  | [] => ([], fs)
  | p :: rest =>
    let (r, fs1) := ArchiveArchiveConverter.convert_file env fs p target_format delete_original
    let (rs, fs2) := ArchiveArchiveConverter.convert_batch env fs1 rest target_format delete_original
    (r :: rs, fs2)

/- ### PDF <-> CBZ processor (processors/arc_conv_pdf_proc.py). -/

/-- `f"page_{i + 1:03d}.png"` for 0-based page index `i`. -/
def zeroPad3 (n : Nat) : String :=
  let s := toString n
  if s.toList.length < 3 then
    String.mk (List.replicate (3 - s.toList.length) '0') ++ s
  else s

def pageImageNames (pages : Nat) : List String :=
  (List.range pages).map (fun i => "page_" ++ zeroPad3 (i + 1) ++ ".png")

/-- Insertion sort with the string order, `image_files.sort()`. -/
def sortStrings (l : List String) : List String :=
  let rec insert (x : String) : List String → List String
    | [] => [x]
    | y :: ys => if x ≤ y then x :: y :: ys else y :: insert x ys
  match l with
  | [] => []
  | x :: xs => insert x (sortStrings xs)

/-- `PdfArchiveConverter.convert_pdf_to_cbz`: the two validation raises are
unwrapped; inside the `try`, `fitz.open` fails on content that is not a
parsable PDF (detection only looked at the suffix), each page is rasterized
to `page_{i+1:03d}.png` in the temporary directory, and the directory is
packed with the shared `create_zip_archive` helper.  A zero-page document
skips the loop and packs an empty archive — there is no page-count check.
Exceptions of the `try` are wrapped as "Failed to convert PDF to CBZ: ...". -/
def PdfArchiveConverter.convert_pdf_to_cbz (env : Env) (fs : FS)
    (pdf_path output_path : String) : Except String Unit × FS :=
  if fs_exists fs pdf_path = false then
    (Except.error ("Source PDF file not found: " ++ pdf_path), fs)
  else if fs_detect fs pdf_path ≠ some Format.PDF then
    (Except.error ("File is not a valid PDF: " ++ pdf_path), fs)
  else
    match fs_lookup fs pdf_path with
    | some (FileContent.pdfDoc pages) =>
      if env.extractOk = false then
        (Except.error ("Failed to convert PDF to CBZ: " ++ env.extractErrMsg), fs)
      else
        match create_zip_archive env fs (pageImageNames pages) output_path with
        | (Except.ok _, fs1) => (Except.ok (), fs1)
        | (Except.error e, fs1) =>
          (Except.error ("Failed to convert PDF to CBZ: " ++ e), fs1)
    | _ => (Except.error ("Failed to convert PDF to CBZ: " ++ env.fitzErrMsg), fs)

/-- `PdfArchiveConverter.convert_cbz_to_pdf`: after the two unwrapped
validation raises, the entry names are filtered by the supported image
suffixes and sorted; zero images raises "No images found in CBZ archive."
before anything is written.  Otherwise the images are extracted and decoded
(`Env.extractOk` covers both loops), the defensive second emptiness check is
unreachable, and `PIL.Image.save` composes the PDF.  Exceptions of the `try`
are wrapped as "Failed to convert CBZ to PDF: ...". -/
def PdfArchiveConverter.convert_cbz_to_pdf (env : Env) (fs : FS)
    (cbz_path output_path : String) : Except String Unit × FS :=
  if fs_exists fs cbz_path = false then
    (Except.error ("Source CBZ file not found: " ++ cbz_path), fs)
  else if fs_detect fs cbz_path ≠ some Format.CBZ then
    (Except.error ("File is not a valid CBZ archive: " ++ cbz_path), fs)
  else
    let image_files := sortStrings ((archiveNames (fs_lookup fs cbz_path)).filter
      (fun f => supported_image_extensions.contains (strLower (suffixOfPath f))))
    if image_files.length = 0 then
      (Except.error "Failed to convert CBZ to PDF: No images found in CBZ archive.", fs)
    else if env.extractOk = false then
      (Except.error ("Failed to convert CBZ to PDF: " ++ env.extractErrMsg), fs)
    else if image_files.length = 0 then
      (Except.error "Failed to convert CBZ to PDF: No valid images to convert to PDF.", fs)
    else if env.packOk then
      (Except.ok (),
       if env.packProducesOutput then
         fs_set fs output_path (FileContent.pdfDoc image_files.length)
       else fs)
    else
      (Except.error ("Failed to convert CBZ to PDF: " ++ env.packErrMsg),
       if env.packFailLeavesOutput then fs_set fs output_path FileContent.raw else fs)

/-- `PdfArchiveConverter.convert_file`.  The source lowercases the target and
calls `source_format.upper()`; when detection returned None that attribute
access raises AttributeError, caught by the enclosing handler, so the result
carries the interpreter's message instead of the unsupported-conversion
message. -/
def PdfArchiveConverter.convert_file (env : Env) (fs : FS) (file_path : String)
    (target_format : String) (delete_original : Bool) : ConversionResult × FS :=
  let original_path := file_path
  let converted_path := with_suffix file_path ("." ++ strLower target_format)
  match fs_detect fs original_path with
  | none =>
    ({ original_path, converted_path, success := false,
       error_message := "\x27NoneType\x27 object has no attribute \x27upper\x27" }, fs)
  | some sf =>
    if (strLower target_format = "cbz" ∧ sf.str = "PDF")
        ∨ (strLower target_format = "pdf" ∧ sf.str = "CBZ") then
      finalize_result env original_path converted_path delete_original
        (if strLower target_format = "cbz" then
          PdfArchiveConverter.convert_pdf_to_cbz env fs original_path converted_path
         else
          PdfArchiveConverter.convert_cbz_to_pdf env fs original_path converted_path)
    else
      ({ original_path, converted_path, success := false,
         error_message := "Unsupported conversion type or file extension." }, fs)

def PdfArchiveConverter.convert_batch (env : Env) (fs : FS) (file_paths : List String)
    (target_format : String) (delete_original : Bool) : List ConversionResult × FS :=
  match file_paths with
  | [] => ([], fs)
  | p :: rest =>
    let (r, fs1) := PdfArchiveConverter.convert_file env fs p target_format delete_original
    let (rs, fs2) := PdfArchiveConverter.convert_batch env fs1 rest target_format delete_original
    (r :: rs, fs2)

/- ### Concrete sample environment and filesystem used by the closed runs. -/

def envGood : Env :=
  { rarToolPresent := true, extractOk := true, extractErrMsg := "disk error"
    packOk := true, packErrMsg := "disk error", packFailLeavesOutput := true
    packProducesOutput := true, rarStderr := "rar error"
    fitzErrMsg := "cannot open document", unlinkOk := true
    unlinkErrMsg := "unlink failed" }

def fsA : FS := [("a.cbr", FileContent.rarArchive ["1.png", "2.png"])]

/- ### Supporting lemmas. -/

theorem truncQ_intCast_div (a b : ℤ) (hb : 0 < b) :
    truncQ ((a : ℚ) / (b : ℚ)) = a.tdiv b := by
  have hfloor : ∀ n : ℤ, ⌊(n : ℚ) / (b : ℚ)⌋ = n / b := by
    intro n
    have h1 : ((b.toNat : ℕ) : ℚ) = (b : ℚ) := by
      have := Int.toNat_of_nonneg hb.le
      exact_mod_cast congrArg (fun z : ℤ => (z : ℚ)) this
    rw [← h1, Rat.floor_intCast_div_natCast, Int.toNat_of_nonneg hb.le]
  have hbq : (0 : ℚ) < (b : ℚ) := by exact_mod_cast hb
  rcases le_or_lt 0 a with ha | ha
  · have haq : (0 : ℚ) ≤ (a : ℚ) := by exact_mod_cast ha
    rw [truncQ, if_pos (div_nonneg haq hbq.le), hfloor, Int.tdiv_eq_ediv ha hb.le]
  · have haq : (a : ℚ) < 0 := by exact_mod_cast ha
    have hq : (a : ℚ) / (b : ℚ) < 0 := div_neg_of_neg_of_pos haq hbq
    rw [truncQ, if_neg (not_le.mpr hq)]
    have hceil : ⌈(a : ℚ) / (b : ℚ)⌉ = -⌊-((a : ℚ) / (b : ℚ))⌋ := by
      rw [Int.floor_neg]
      ring
    rw [hceil, show -((a : ℚ) / (b : ℚ)) = ((-a : ℤ) : ℚ) / (b : ℚ) by push_cast; ring,
        hfloor, ← Int.tdiv_eq_ediv (by omega) hb.le]
    rw [Int.neg_tdiv]
    ring

theorem raw_percent_eq_truncQ (c t : Int) (ht : 0 < t) :
    raw_percent c t = min 100 (max 0 (truncQ ((100 * (c : ℚ)) / (t : ℚ)))) := by
  rw [raw_percent, if_pos ht]
  rw [show (100 : ℚ) * (c : ℚ) = ((100 * c : ℤ) : ℚ) by push_cast; ring]
  rw [truncQ_intCast_div _ _ ht, show (100 * c : ℤ) = c * 100 by ring]

theorem raw_percent_self (t : Int) (ht : 0 < t) : raw_percent t t = 100 := by
  have h2 : (t * 100).tdiv t = 100 := Int.mul_tdiv_cancel_left 100 (by omega)
  rw [raw_percent, if_pos ht, h2]
  norm_num

theorem fs_lookup_filter_ne (fs : FS) (a q : String) (h : q ≠ a) :
    fs_lookup (fs.filter (fun e => e.1 ≠ a)) q = fs_lookup fs q := by
  induction fs with
  | nil => rfl
  | cons e rest ih =>
    obtain ⟨x, c⟩ := e
    by_cases hxa : x = a
    · rw [List.filter_cons, if_neg (by simp [hxa])]
      rw [ih]
      have hxq : ¬ (x = q) := by rw [hxa]; exact fun hq => h hq.symm
      simp only [fs_lookup]
      rw [if_neg hxq]
    · rw [List.filter_cons, if_pos (by simp [hxa])]
      simp only [fs_lookup]
      by_cases hxq : x = q
      · rw [if_pos hxq, if_pos hxq]
      · rw [if_neg hxq, if_neg hxq]
        exact ih

theorem fs_lookup_set_self (fs : FS) (a : String) (c : FileContent) :
    fs_lookup (fs_set fs a c) a = some c := by
  simp [fs_set, fs_lookup]

theorem fs_lookup_set_ne (fs : FS) (a q : String) (c : FileContent) (h : q ≠ a) :
    fs_lookup (fs_set fs a c) q = fs_lookup fs q := by
  rw [fs_set, fs_lookup, if_neg (fun hq => h hq.symm)]
  exact fs_lookup_filter_ne fs a q h

theorem fs_lookup_remove_ne (fs : FS) (a q : String) (h : q ≠ a) :
    fs_lookup (fs_remove fs a) q = fs_lookup fs q := by
  rw [fs_remove]
  exact fs_lookup_filter_ne fs a q h

theorem fs_exists_set_self (fs : FS) (a : String) (c : FileContent) :
    fs_exists (fs_set fs a c) a = true := by
  simp [fs_exists, fs_lookup_set_self]

theorem fs_detect_eq (fs : FS) (p : String) :
    fs_detect fs p =
      if strLower (suffixOfPath p) = ".pdf" then some Format.PDF
      else
        match fs_lookup fs p with
        | none => none
        | some (FileContent.zipArchive _) => some Format.CBZ
        | some (FileContent.rarArchive _) => some Format.CBR
        | some _ => none := by
  rw [fs_detect, detect_archive_format]
  by_cases hs : strLower (suffixOfPath p) = ".pdf"
  · simp [fileProbeOf, hs]
  · simp only [fileProbeOf, hs, if_false]
    cases h : fs_lookup fs p with
    | none => simp [h]
    | some c => cases c <;> simp [h]

theorem fs_detect_CBZ_inv (fs : FS) (p : String)
    (h : fs_detect fs p = some Format.CBZ) :
    strLower (suffixOfPath p) ≠ ".pdf"
      ∧ ∃ ns, fs_lookup fs p = some (FileContent.zipArchive ns) := by
  rw [fs_detect_eq] at h
  by_cases hs : strLower (suffixOfPath p) = ".pdf"
  · rw [if_pos hs] at h
    exact absurd (Option.some.inj h) (by intro hc; cases hc)
  · rw [if_neg hs] at h
    refine ⟨hs, ?_⟩
    cases hl : fs_lookup fs p with
    | none => rw [hl] at h; cases h
    | some c =>
      cases c with
      | zipArchive ns => exact ⟨ns, rfl⟩
      | rarArchive ns => rw [hl] at h; cases Option.some.inj h
      | pdfDoc n => rw [hl] at h; cases h
      | raw => rw [hl] at h; cases h

theorem fs_detect_CBR_inv (fs : FS) (p : String)
    (h : fs_detect fs p = some Format.CBR) :
    strLower (suffixOfPath p) ≠ ".pdf"
      ∧ ∃ ns, fs_lookup fs p = some (FileContent.rarArchive ns) := by
  rw [fs_detect_eq] at h
  by_cases hs : strLower (suffixOfPath p) = ".pdf"
  · rw [if_pos hs] at h
    exact absurd (Option.some.inj h) (by intro hc; cases hc)
  · rw [if_neg hs] at h
    refine ⟨hs, ?_⟩
    cases hl : fs_lookup fs p with
    | none => rw [hl] at h; cases h
    | some c =>
      cases c with
      | zipArchive ns => rw [hl] at h; cases Option.some.inj h
      | rarArchive ns => exact ⟨ns, rfl⟩
      | pdfDoc n => rw [hl] at h; cases h
      | raw => rw [hl] at h; cases h

theorem fs_detect_exists (fs : FS) (p : String) (sf : Format)
    (h : fs_detect fs p = some sf) (hnp : sf ≠ Format.PDF) :
    fs_exists fs p = true := by
  rw [fs_detect_eq] at h
  by_cases hs : strLower (suffixOfPath p) = ".pdf"
  · rw [if_pos hs] at h
    exact absurd (Option.some.inj h).symm hnp
  · rw [if_neg hs] at h
    cases hl : fs_lookup fs p with
    | none => rw [hl] at h; cases h
    | some c => simp [fs_exists, hl]

theorem create_zip_archive_frame (env : Env) (fs : FS) (ns : List String)
    (zp q : String) (h : q ≠ zp) :
    fs_lookup (create_zip_archive env fs ns zp).2 q = fs_lookup fs q := by
  rw [create_zip_archive]
  by_cases hp : env.packOk = true
  · by_cases ho : env.packProducesOutput = true
    · simp [hp, ho, fs_lookup_set_ne _ _ _ _ h]
    · simp [hp, ho]
  · by_cases hl : env.packFailLeavesOutput = true
    · simp [hp, hl, fs_lookup_set_ne _ _ _ _ h]
    · simp [hp, hl]

theorem create_rar_archive_frame (env : Env) (fs : FS) (ns : List String)
    (rp q : String) (h : q ≠ rp) :
    fs_lookup (create_rar_archive env fs ns rp).2 q = fs_lookup fs q := by
  rw [create_rar_archive]
  by_cases ht : env.rarToolPresent = false
  · simp [ht]
  · by_cases hp : env.packOk = true
    · by_cases ho : env.packProducesOutput = true
      · simp [ht, hp, ho, fs_lookup_set_ne _ _ _ _ h]
      · simp [ht, hp, ho]
    · by_cases hl : env.packFailLeavesOutput = true
      · simp [ht, hp, hl, fs_lookup_set_ne _ _ _ _ h]
      · simp [ht, hp, hl]

theorem cb_convert_archive_frame (env : Env) (fs : FS) (sp : String) (sf : Format)
    (op q : String) (h : q ≠ op) :
    fs_lookup (ArchiveArchiveConverter.convert_archive env fs sp sf op).2 q
      = fs_lookup fs q := by
  cases sf with
  | PDF => rfl
  | CBR =>
    rw [ArchiveArchiveConverter.convert_archive]
    by_cases h1 : fs_exists fs sp = false
    · simp [h1]
    · rw [if_neg h1]
      by_cases h2 : fs_detect fs sp ≠ some Format.CBR
      · simp [h2]
      · rw [if_neg h2]
        by_cases h3 : env.extractOk = false
        · simp [h3]
        · rw [if_neg h3]
          rcases hc : create_zip_archive env fs (archiveNames (fs_lookup fs sp)) op
            with ⟨out, fs1⟩
          have hf : fs_lookup fs1 q = fs_lookup fs q := by
            have := create_zip_archive_frame env fs (archiveNames (fs_lookup fs sp)) op q h
            rw [hc] at this
            exact this
          cases out with
          | ok u => exact hf
          | error e => exact hf
  | CBZ =>
    rw [ArchiveArchiveConverter.convert_archive]
    by_cases h1 : fs_exists fs sp = false
    · simp [h1]
    · rw [if_neg h1]
      by_cases h2 : fs_detect fs sp ≠ some Format.CBZ
      · simp [h2]
      · rw [if_neg h2]
        by_cases h3 : env.extractOk = false
        · simp [h3]
        · rw [if_neg h3]
          rcases hc : create_rar_archive env fs (archiveNames (fs_lookup fs sp)) op
            with ⟨out, fs1⟩
          have hf : fs_lookup fs1 q = fs_lookup fs q := by
            have := create_rar_archive_frame env fs (archiveNames (fs_lookup fs sp)) op q h
            rw [hc] at this
            exact this
          cases out with
          | ok u => exact hf
          | error e => exact hf

theorem pdf_to_cbz_frame (env : Env) (fs : FS) (pp op q : String) (h : q ≠ op) :
    fs_lookup (PdfArchiveConverter.convert_pdf_to_cbz env fs pp op).2 q
      = fs_lookup fs q := by
  rw [PdfArchiveConverter.convert_pdf_to_cbz]
  by_cases h1 : fs_exists fs pp = false
  · simp [h1]
  · rw [if_neg h1]
    by_cases h2 : fs_detect fs pp ≠ some Format.PDF
    · simp [h2]
    · rw [if_neg h2]
      cases hl : fs_lookup fs pp with
      | none => simp
      | some c =>
        cases c with
        | pdfDoc pages =>
          dsimp only
          by_cases h3 : env.extractOk = false
          · rw [if_pos h3]
          · rw [if_neg h3]
            rcases hc : create_zip_archive env fs (pageImageNames pages) op with ⟨out, fs1⟩
            have hf : fs_lookup fs1 q = fs_lookup fs q := by
              have := create_zip_archive_frame env fs (pageImageNames pages) op q h
              rw [hc] at this
              exact this
            cases out with
            | ok u => exact hf
            | error e => exact hf
        | zipArchive ns => simp
        | rarArchive ns => simp
        | raw => simp

theorem cbz_to_pdf_frame (env : Env) (fs : FS) (cp op q : String) (h : q ≠ op) :
    fs_lookup (PdfArchiveConverter.convert_cbz_to_pdf env fs cp op).2 q
      = fs_lookup fs q := by
  rw [PdfArchiveConverter.convert_cbz_to_pdf]
  by_cases h1 : fs_exists fs cp = false
  · simp [h1]
  · rw [if_neg h1]
    by_cases h2 : fs_detect fs cp ≠ some Format.CBZ
    · simp [h2]
    · rw [if_neg h2]
      by_cases h4 : (sortStrings ((archiveNames (fs_lookup fs cp)).filter
          (fun f => supported_image_extensions.contains (strLower (suffixOfPath f))))).length = 0
      · rw [if_pos h4]
      · rw [if_neg h4]
        by_cases h3 : env.extractOk = false
        · rw [if_pos h3]
        · rw [if_neg h3, if_neg h4]
          by_cases hp : env.packOk = true
          · rw [if_pos hp]
            dsimp only
            by_cases ho : env.packProducesOutput = true
            · rw [if_pos ho]
              exact fs_lookup_set_ne _ _ _ _ h
            · rw [if_neg ho]
          · rw [if_neg hp]
            dsimp only
            by_cases hl2 : env.packFailLeavesOutput = true
            · rw [if_pos hl2]
              exact fs_lookup_set_ne _ _ _ _ h
            · rw [if_neg hl2]

theorem finalize_result_cases (env : Env) (o c : String) (del : Bool)
    (out : Except String Unit) (fs1 : FS) :
    (∃ m, out = Except.error m ∧
       finalize_result env o c del (out, fs1)
         = ({ original_path := o, converted_path := c, success := false,
              error_message := m }, fs1)) ∨
    (out = Except.ok () ∧ fs_exists fs1 c = false ∧
       finalize_result env o c del (out, fs1)
         = ({ original_path := o, converted_path := c, success := false,
              error_message := "Conversion failed: " ++ c ++ " was not created." }, fs1)) ∨
    (out = Except.ok () ∧ fs_exists fs1 c = true ∧ del = false ∧
       finalize_result env o c del (out, fs1)
         = ({ original_path := o, converted_path := c, success := true,
              error_message := "" }, fs1)) ∨
    (out = Except.ok () ∧ fs_exists fs1 c = true ∧ del = true ∧ env.unlinkOk = true ∧
       finalize_result env o c del (out, fs1)
         = ({ original_path := o, converted_path := c, success := true,
              error_message := "" }, fs_remove fs1 o)) ∨
    (out = Except.ok () ∧ fs_exists fs1 c = true ∧ del = true ∧ env.unlinkOk = false ∧
       finalize_result env o c del (out, fs1)
         = ({ original_path := o, converted_path := c, success := true,
              error_message := env.unlinkErrMsg }, fs1)) := by
  cases out with
  | error m => exact Or.inl ⟨m, rfl, rfl⟩
  | ok u =>
    cases u
    rw [finalize_result]
    by_cases he : fs_exists fs1 c = true
    · rw [if_pos he]
      cases del with
      | false => exact Or.inr (Or.inr (Or.inl ⟨rfl, he, rfl, by rw [if_neg (by simp)]⟩))
      | true =>
        by_cases hu : env.unlinkOk = true
        · refine Or.inr (Or.inr (Or.inr (Or.inl ⟨rfl, he, rfl, hu, ?_⟩)))
          rw [if_pos rfl, if_pos hu]
        · refine Or.inr (Or.inr (Or.inr (Or.inr ⟨rfl, he, rfl, by simpa using hu, ?_⟩)))
          rw [if_pos rfl, if_neg hu]
    · rw [if_neg he]
      exact Or.inr (Or.inl ⟨rfl, by simpa using he, rfl⟩)

theorem cb_convert_file_cases (env : Env) (fs : FS) (p tgt : String) (del : Bool) :
    (ArchiveArchiveConverter.convert_file env fs p tgt del
       = ({ original_path := p, converted_path := with_suffix p ("." ++ tgt),
            success := false,
            error_message := "Unsupported conversion type or file extension." }, fs)) ∨
    (∃ sf, fs_detect fs p = some sf ∧
       ((tgt = "cbz" ∧ sf = Format.CBR) ∨ (tgt = "cbr" ∧ sf = Format.CBZ)) ∧
       ArchiveArchiveConverter.convert_file env fs p tgt del
         = finalize_result env p (with_suffix p ("." ++ tgt)) del
             (ArchiveArchiveConverter.convert_archive env fs p sf
               (with_suffix p ("." ++ tgt)))) := by
  rw [ArchiveArchiveConverter.convert_file]
  cases hd : fs_detect fs p with
  | none => exact Or.inl rfl
  | some sf =>
    by_cases hg : (tgt = "cbz" ∧ sf = Format.CBR) ∨ (tgt = "cbr" ∧ sf = Format.CBZ)
    · exact Or.inr ⟨sf, rfl, hg, by dsimp only; rw [if_pos hg]⟩
    · exact Or.inl (by dsimp only; rw [if_neg hg])

theorem pdf_convert_file_cases (env : Env) (fs : FS) (p tgt : String) (del : Bool) :
    (fs_detect fs p = none ∧
       PdfArchiveConverter.convert_file env fs p tgt del
         = ({ original_path := p, converted_path := with_suffix p ("." ++ strLower tgt),
              success := false,
              error_message := "\x27NoneType\x27 object has no attribute \x27upper\x27" }, fs)) ∨
    (PdfArchiveConverter.convert_file env fs p tgt del
       = ({ original_path := p, converted_path := with_suffix p ("." ++ strLower tgt),
            success := false,
            error_message := "Unsupported conversion type or file extension." }, fs)) ∨
    (∃ sf, fs_detect fs p = some sf ∧
       ((strLower tgt = "cbz" ∧ sf.str = "PDF") ∨ (strLower tgt = "pdf" ∧ sf.str = "CBZ")) ∧
       PdfArchiveConverter.convert_file env fs p tgt del
         = finalize_result env p (with_suffix p ("." ++ strLower tgt)) del
             (if strLower tgt = "cbz" then
               PdfArchiveConverter.convert_pdf_to_cbz env fs p
                 (with_suffix p ("." ++ strLower tgt))
              else
               PdfArchiveConverter.convert_cbz_to_pdf env fs p
                 (with_suffix p ("." ++ strLower tgt)))) := by
  rw [PdfArchiveConverter.convert_file]
  cases hd : fs_detect fs p with
  | none => exact Or.inl ⟨rfl, rfl⟩
  | some sf =>
    by_cases hg : (strLower tgt = "cbz" ∧ sf.str = "PDF") ∨ (strLower tgt = "pdf" ∧ sf.str = "CBZ")
    · exact Or.inr (Or.inr ⟨sf, rfl, hg, by dsimp only; rw [if_pos hg]⟩)
    · exact Or.inr (Or.inl (by dsimp only; rw [if_neg hg]))

theorem cb_convert_batch_cons (env : Env) (fs : FS) (p : String) (rest : List String)
    (tgt : String) (del : Bool) :
    ArchiveArchiveConverter.convert_batch env fs (p :: rest) tgt del
      = ((ArchiveArchiveConverter.convert_file env fs p tgt del).1
           :: (ArchiveArchiveConverter.convert_batch env
                (ArchiveArchiveConverter.convert_file env fs p tgt del).2 rest tgt del).1,
         (ArchiveArchiveConverter.convert_batch env
           (ArchiveArchiveConverter.convert_file env fs p tgt del).2 rest tgt del).2) := by
  rw [ArchiveArchiveConverter.convert_batch]

theorem pdf_convert_batch_cons (env : Env) (fs : FS) (p : String) (rest : List String)
    (tgt : String) (del : Bool) :
    PdfArchiveConverter.convert_batch env fs (p :: rest) tgt del
      = ((PdfArchiveConverter.convert_file env fs p tgt del).1
           :: (PdfArchiveConverter.convert_batch env
                (PdfArchiveConverter.convert_file env fs p tgt del).2 rest tgt del).1,
         (PdfArchiveConverter.convert_batch env
           (PdfArchiveConverter.convert_file env fs p tgt del).2 rest tgt del).2) := by
  rw [PdfArchiveConverter.convert_batch]

theorem cb_convert_batch_results (env : Env) (tgt : String) (del : Bool) :
    ∀ (paths : List String) (fs : FS),
      ((ArchiveArchiveConverter.convert_batch env fs paths tgt del).1.length
         = paths.length) ∧
      (∀ (k : Nat) (pk : String), paths.get? k = some pk →
        (ArchiveArchiveConverter.convert_batch env fs paths tgt del).1.get? k
          = some (ArchiveArchiveConverter.convert_file env
              ((ArchiveArchiveConverter.convert_batch env fs (paths.take k) tgt del).2)
              pk tgt del).1) := by
  intro paths
  induction paths with
  | nil =>
    intro fs
    refine ⟨rfl, ?_⟩
    intro k pk hk
    cases k <;> cases hk
  | cons p rest ih =>
    intro fs
    rw [cb_convert_batch_cons]
    constructor
    · simp only [List.length_cons]
      rw [(ih ((ArchiveArchiveConverter.convert_file env fs p tgt del).2)).1]
    · intro k pk hk
      cases k with
      | zero =>
        obtain rfl : p = pk := by simpa using hk
        rfl
      | succ k =>
        have hrest : rest.get? k = some pk := by simpa using hk
        have hmain := (ih ((ArchiveArchiveConverter.convert_file env fs p tgt del).2)).2 k pk hrest
        simp only [List.get?, List.take]
        rw [cb_convert_batch_cons]
        exact hmain

theorem pdf_convert_batch_results (env : Env) (tgt : String) (del : Bool) :
    ∀ (paths : List String) (fs : FS),
      ((PdfArchiveConverter.convert_batch env fs paths tgt del).1.length
         = paths.length) ∧
      (∀ (k : Nat) (pk : String), paths.get? k = some pk →
        (PdfArchiveConverter.convert_batch env fs paths tgt del).1.get? k
          = some (PdfArchiveConverter.convert_file env
              ((PdfArchiveConverter.convert_batch env fs (paths.take k) tgt del).2)
              pk tgt del).1) := by
  intro paths
  induction paths with
  | nil =>
    intro fs
    refine ⟨rfl, ?_⟩
    intro k pk hk
    cases k <;> cases hk
  | cons p rest ih =>
    intro fs
    rw [pdf_convert_batch_cons]
    constructor
    · simp only [List.length_cons]
      rw [(ih ((PdfArchiveConverter.convert_file env fs p tgt del).2)).1]
    · intro k pk hk
      cases k with
      | zero =>
        obtain rfl : p = pk := by simpa using hk
        rfl
      | succ k =>
        have hrest : rest.get? k = some pk := by simpa using hk
        have hmain := (ih ((PdfArchiveConverter.convert_file env fs p tgt del).2)).2 k pk hrest
        simp only [List.get?, List.take]
        rw [pdf_convert_batch_cons]
        exact hmain

/-- C4: a callback made by the per-file progress normalizer with
`is_last_file = false` emits 99 whenever the computed raw percentage is 100
(in particular on the raw pair `(total, total)` for any `total > 0`), and the
`is_last_file = true` callback emits exactly 100 on `(total, total)`. -/
theorem C4_progress_cap_nonlast :
    (∀ (fi tf : Nat) (c t : Int), raw_percent c t = 100 →
       create_per_file_progress_callback true fi tf false c t = some (99, 100)) ∧
    (∀ (fi tf : Nat) (t : Int), 0 < t →
       create_per_file_progress_callback true fi tf false t t = some (99, 100) ∧
       create_per_file_progress_callback true fi tf true t t = some (100, 100)) := by
  constructor
  · intro fi tf c t h
    simp [create_per_file_progress_callback, callback_percent, h]
  · intro fi tf t ht
    have h := raw_percent_self t ht
    constructor
    · simp [create_per_file_progress_callback, callback_percent, h]
    · simp [create_per_file_progress_callback, callback_percent, h]

theorem C4_witness :
    raw_percent 7 7 = 100
    ∧ create_per_file_progress_callback true 0 2 false 7 7 = some (99, 100)
    ∧ (0 : Int) < 7
    ∧ create_per_file_progress_callback true 1 2 true 7 7 = some (100, 100) :=
  ⟨by decide, C4_progress_cap_nonlast.1 0 2 7 7 (by decide), by decide,
   (C4_progress_cap_nonlast.2 1 2 7 (by decide)).2⟩

/-- C5 as written is false: the normalizer truncates the percentage, it does
not round to nearest.  At the raw pair `(2, 3)` the callback forwards
`(66, 100)` while the claimed formula `clamp(round(100 * 2/3), 0, 100)`
yields 67. -/
theorem C5_counterexample :
    create_per_file_progress_callback true 0 1 true 2 3 = some (66, 100)
    ∧ round_percent_spec 2 3 = 67 ∧ (66 : Int) ≠ 67 := by
  refine ⟨by decide, ?_, by decide⟩
  have h : round ((200 : ℚ) / 3) = 67 := by
    rw [round_eq, show (200 : ℚ) / 3 + 1 / 2 = 403 / 6 by norm_num]
    rw [Int.floor_eq_iff]
    constructor
    · norm_num
    · norm_num
  rw [round_percent_spec]
  norm_num
  rw [h]
  norm_num

/-- C5 amended: the callback forwards
`(clamp(trunc(100 * current/total), 0, 100), 100)` when `total > 0` — with
trunc truncation toward zero, not arithmetic rounding — and `(0, 100)` when
`total ≤ 0`, before the non-last-file cap of a raw 100 down to 99. -/
theorem C5_progress_truncation_amended :
    ∀ (fi tf : Nat) (last : Bool) (c t : Int),
      (create_per_file_progress_callback true fi tf last c t
         = some ((if last = false ∧ raw_percent c t = 100 then 99
                  else raw_percent c t), 100)) ∧
      (0 < t → raw_percent c t
         = min 100 (max 0 (truncQ ((100 * (c : ℚ)) / (t : ℚ))))) ∧
      (t ≤ 0 → raw_percent c t = 0) := by
  intro fi tf last c t
  refine ⟨?_, ?_, ?_⟩
  · simp [create_per_file_progress_callback, callback_percent]
  · intro ht
    exact raw_percent_eq_truncQ c t ht
  · intro ht
    rw [raw_percent, if_neg (not_lt.mpr ht)]

theorem C5_witness :
    (0 : Int) < 3
    ∧ raw_percent 2 3 = min 100 (max 0 (truncQ ((100 * (2 : ℚ)) / (3 : ℚ)))) :=
  ⟨by norm_num, (C5_progress_truncation_amended 0 1 true 2 3).2.1 (by norm_num)⟩

/-- C6: every report produced by validate_comic_archive — including the
zero-valued reports returned when detection fails, when the container cannot
be opened or listed, or when the PDF cannot be opened — satisfies
`is_valid = true ↔ image_count > 0`. -/
theorem C6_validity_iff_image_count (f : VFile) :
    (ArchiveConverter.validate_comic_archive f).1 = true
      ↔ 0 < (ArchiveConverter.validate_comic_archive f).2.2.image_count := by
  rw [ArchiveConverter.validate_comic_archive]
  cases hd : detect_archive_format f.probe with
  | none => simp [emptyDetails]
  | some fmt =>
    cases fmt with
    | CBZ =>
      cases hz : f.zipEntries with
      | error e => simp [ArchiveConverter.validate_zip_archive, hz, emptyDetails]
      | ok es => simp [ArchiveConverter.validate_zip_archive, hz]
    | CBR =>
      cases hr : f.rarEntries with
      | error e => simp [ArchiveConverter.validate_rar_archive, hr, emptyDetails]
      | ok es => simp [ArchiveConverter.validate_rar_archive, hr]
    | PDF =>
      cases hp : f.pdfPages with
      | error e => simp [ArchiveConverter.validate_pdf_file, hp, emptyDetails]
      | ok n => simp [ArchiveConverter.validate_pdf_file, hp]

/-- C7: detect_archive_format is total — it always returns one of
CBZ/CBR/PDF/Unknown (`none`) and, being a Lean function over the probed
checks with every exception path mapped to `none`, never propagates one —
and applies its checks in order: a `.pdf` suffix (case-insensitive) wins
unconditionally; else a valid ZIP yields CBZ; else a valid RAR yields CBR;
else Unknown; any raising check yields Unknown. -/
theorem C7_detect_total_ordered (f : FileProbe) :
    (detect_archive_format f = none
       ∨ ∃ fmt, detect_archive_format f = some fmt) ∧
    (strLower f.suffix = ".pdf" → detect_archive_format f = some Format.PDF) ∧
    (strLower f.suffix ≠ ".pdf" →
      (f.zipCheck = Except.ok true → detect_archive_format f = some Format.CBZ) ∧
      (∀ e, f.zipCheck = Except.error e → detect_archive_format f = none) ∧
      (f.zipCheck = Except.ok false →
        (f.rarCheck = Except.ok true → detect_archive_format f = some Format.CBR) ∧
        (f.rarCheck = Except.ok false → detect_archive_format f = none) ∧
        (∀ e, f.rarCheck = Except.error e → detect_archive_format f = none))) := by
  refine ⟨?_, ?_, ?_⟩
  · cases h : detect_archive_format f with
    | none => exact Or.inl rfl
    | some fmt => exact Or.inr ⟨fmt, rfl⟩
  · intro hs
    rw [detect_archive_format, if_pos hs]
  · intro hs
    refine ⟨?_, ?_, ?_⟩
    · intro hz
      rw [detect_archive_format, if_neg hs, hz]
    · intro e hz
      rw [detect_archive_format, if_neg hs, hz]
    · intro hz
      refine ⟨?_, ?_, ?_⟩
      · intro hr
        rw [detect_archive_format, if_neg hs, hz, hr]
      · intro hr
        rw [detect_archive_format, if_neg hs, hz, hr]
      · intro e hr
        rw [detect_archive_format, if_neg hs, hz, hr]

theorem C7_witness :
    strLower ".PDF" = ".pdf"
    ∧ detect_archive_format
        { suffix := ".PDF", zipCheck := Except.error (), rarCheck := Except.error () }
      = some Format.PDF :=
  ⟨by decide,
   (C7_detect_total_ordered
     { suffix := ".PDF", zipCheck := Except.error (), rarCheck := Except.error () }).2.1
     (by decide)⟩

/-- C2 names behavior the PDF processor does not implement: when detection
yields Unknown (None) — e.g. for a missing, non-.pdf path —
`PdfArchiveConverter.convert_file` evaluates `source_format.upper()` on None
and the caught AttributeError becomes the error message, not
"Unsupported conversion type or file extension.".  Success is still false and
no output is created.  (The CBR/CBZ processor compares with `==` and does
produce the unsupported-conversion message, as the spec describes.) -/
theorem C2_pdf_unknown_source_eval :
    PdfArchiveConverter.convert_file envGood [] "missing.xyz" "cbz" false
      = ({ original_path := "missing.xyz", converted_path := "missing.cbz",
           success := false,
           error_message := "\x27NoneType\x27 object has no attribute \x27upper\x27" },
         []) := by
  decide

/-- C8 as stated is false for the PDF→CBZ direction: a zero-page PDF is
converted to an empty CBZ archive and reported as a success; no
empty-content failure fires. -/
theorem C8_counterexample :
    (PdfArchiveConverter.convert_file envGood [("b.pdf", FileContent.pdfDoc 0)]
        "b.pdf" "cbz" false).1.success = true
    ∧ fs_lookup (PdfArchiveConverter.convert_file envGood
        [("b.pdf", FileContent.pdfDoc 0)] "b.pdf" "cbz" false).2 "b.cbz"
      = some (FileContent.zipArchive []) := by
  decide

/-- C8 amended: only the CBZ→PDF direction enforces the empty-content
failure — a CBZ whose entries contain no supported image suffix fails with
success = false, the message "Failed to convert CBZ to PDF: No images found
in CBZ archive." and an unchanged filesystem — while a zero-page PDF
converted to CBZ produces an empty archive at the output path with
success = true. -/
theorem C8_empty_content_amended :
    (∀ (env : Env) (fs : FS) (p : String) (del : Bool) (names : List String),
      fs_detect fs p = some Format.CBZ →
      fs_lookup fs p = some (FileContent.zipArchive names) →
      names.filter (fun f => supported_image_extensions.contains
        (strLower (suffixOfPath f))) = [] →
      PdfArchiveConverter.convert_file env fs p "pdf" del
        = ({ original_path := p, converted_path := with_suffix p ".pdf",
             success := false,
             error_message :=
               "Failed to convert CBZ to PDF: No images found in CBZ archive." },
           fs)) ∧
    (∀ (env : Env) (fs : FS) (p : String),
      fs_detect fs p = some Format.PDF →
      fs_lookup fs p = some (FileContent.pdfDoc 0) →
      env.extractOk = true → env.packOk = true → env.packProducesOutput = true →
      (PdfArchiveConverter.convert_file env fs p "cbz" false).1.success = true ∧
      fs_lookup (PdfArchiveConverter.convert_file env fs p "cbz" false).2
          (with_suffix p ".cbz")
        = some (FileContent.zipArchive [])) := by
  constructor
  · intro env fs p del names hdet hlook hfilter
    rw [PdfArchiveConverter.convert_file, hdet]
    dsimp only
    rw [if_pos (Or.inr ⟨rfl, rfl⟩), if_neg (by decide)]
    rw [PdfArchiveConverter.convert_cbz_to_pdf]
    rw [if_neg (by simp [fs_exists, hlook]), if_neg (by simp [hdet])]
    rw [hlook]
    dsimp only [archiveNames]
    rw [hfilter]
    dsimp only [sortStrings]
    rw [if_pos (show ([] : List String).length = 0 from rfl)]
    rfl
  · intro env fs p hdet hlook hx hp ho
    rw [PdfArchiveConverter.convert_file, hdet]
    dsimp only
    rw [if_pos (Or.inl ⟨rfl, rfl⟩), if_pos (show strLower "cbz" = "cbz" from rfl)]
    rw [PdfArchiveConverter.convert_pdf_to_cbz]
    rw [if_neg (by simp [fs_exists, hlook]), if_neg (by simp [hdet])]
    rw [hlook]
    dsimp only
    rw [if_neg (by simp [hx])]
    rw [create_zip_archive, if_pos hp, if_pos ho]
    dsimp only [pageImageNames, List.range, List.range.loop, List.map]
    rw [finalize_result]
    rw [if_pos (fs_exists_set_self _ _ _)]
    refine ⟨rfl, ?_⟩
    show fs_lookup (fs_set fs (with_suffix p ".cbz") (FileContent.zipArchive []))
        (with_suffix p ".cbz") = some (FileContent.zipArchive [])
    exact fs_lookup_set_self _ _ _

theorem C8_witness :
    fs_detect [("b.cbz", FileContent.zipArchive ["notes.txt"])] "b.cbz"
      = some Format.CBZ
    ∧ fs_lookup [("b.cbz", FileContent.zipArchive ["notes.txt"])] "b.cbz"
      = some (FileContent.zipArchive ["notes.txt"])
    ∧ ["notes.txt"].filter (fun f => supported_image_extensions.contains
        (strLower (suffixOfPath f))) = []
    ∧ PdfArchiveConverter.convert_file envGood
        [("b.cbz", FileContent.zipArchive ["notes.txt"])] "b.cbz" "pdf" false
      = ({ original_path := "b.cbz", converted_path := with_suffix "b.cbz" ".pdf",
           success := false,
           error_message :=
             "Failed to convert CBZ to PDF: No images found in CBZ archive." },
         [("b.cbz", FileContent.zipArchive ["notes.txt"])]) :=
  ⟨by decide, by decide, by decide,
   C8_empty_content_amended.1 envGood
     [("b.cbz", FileContent.zipArchive ["notes.txt"])] "b.cbz" false ["notes.txt"]
     (by decide) (by decide) (by decide)⟩

/-- C9: when the external rar tool is absent, `create_rar_archive` raises
exactly "Failed to create RAR archive: <tool-missing text>" where the
tool-missing text names the missing command-line tool — wording distinct
from the generic packing failure "RAR creation failed: ..." — and the
enclosing CBZ→CBR `convert_file` returns success = false carrying that
message (wrapped by the conversion-step handler), with the filesystem
unchanged. -/
theorem C9_rar_tool_missing :
    (toolMissingText
       = "RAR command-line tool not found. Install Rarfile or rar package to create CBR files.") ∧
    (∀ (env : Env) (fs : FS) (ns : List String) (rp : String),
      env.rarToolPresent = false →
      create_rar_archive env fs ns rp
        = (Except.error ("Failed to create RAR archive: " ++ toolMissingText), fs)) ∧
    (∀ (env : Env) (fs : FS) (p : String) (del : Bool),
      env.rarToolPresent = false → env.extractOk = true →
      fs_detect fs p = some Format.CBZ →
      ArchiveArchiveConverter.convert_file env fs p "cbr" del
        = ({ original_path := p, converted_path := with_suffix p ".cbr",
             success := false,
             error_message := "Failed to convert CBZ to CBR: Failed to create RAR archive: "
               ++ toolMissingText }, fs)) := by
  refine ⟨rfl, ?_, ?_⟩
  · intro env fs ns rp htool
    rw [create_rar_archive, if_pos htool]
  · intro env fs p del htool hx hdet
    have he : fs_exists fs p = true :=
      fs_detect_exists fs p Format.CBZ hdet (by decide)
    rw [ArchiveArchiveConverter.convert_file, hdet]
    dsimp only
    rw [if_pos (Or.inr ⟨rfl, rfl⟩)]
    rw [ArchiveArchiveConverter.convert_archive]
    rw [if_neg (by simp [he]), if_neg (by simp [hdet]), if_neg (by simp [hx])]
    rw [create_rar_archive, if_pos htool]
    rfl

theorem C9_witness :
    ({ envGood with rarToolPresent := false } : Env).rarToolPresent = false
    ∧ ({ envGood with rarToolPresent := false } : Env).extractOk = true
    ∧ fs_detect [("a.cbz", FileContent.zipArchive ["1.png"])] "a.cbz" = some Format.CBZ
    ∧ ArchiveArchiveConverter.convert_file { envGood with rarToolPresent := false }
        [("a.cbz", FileContent.zipArchive ["1.png"])] "a.cbz" "cbr" false
      = ({ original_path := "a.cbz", converted_path := with_suffix "a.cbz" ".cbr",
           success := false,
           error_message := "Failed to convert CBZ to CBR: Failed to create RAR archive: "
             ++ toolMissingText },
         [("a.cbz", FileContent.zipArchive ["1.png"])]) :=
  ⟨by decide, by decide, by decide,
   (C9_rar_tool_missing.2.2 { envGood with rarToolPresent := false }
     [("a.cbz", FileContent.zipArchive ["1.png"])] "a.cbz" false
     (by decide) (by decide) (by decide))⟩

theorem finalize_success_exists (env : Env) (p conv : String) (del : Bool)
    (out : Except String Unit) (fs1 : FS) (hne : conv ≠ p)
    (hs : (finalize_result env p conv del (out, fs1)).1.success = true) :
    fs_exists (finalize_result env p conv del (out, fs1)).2 conv = true := by
  rcases finalize_result_cases env p conv del out fs1 with
    ⟨m, hout, hfin⟩ | ⟨hout, hex, hfin⟩ | ⟨hout, hex, hdel, hfin⟩
      | ⟨hout, hex, hdel, hun, hfin⟩ | ⟨hout, hex, hdel, hun, hfin⟩
  · rw [hfin] at hs
    simp at hs
  · rw [hfin] at hs
    simp at hs
  · rw [hfin]
    exact hex
  · rw [hfin]
    show fs_exists (fs_remove fs1 p) conv = true
    rw [fs_exists, fs_lookup_remove_ne fs1 p conv hne]
    rw [fs_exists] at hex
    exact hex
  · rw [hfin]
    exact hex

theorem finalize_ok_char (env : Env) (p conv : String) (del : Bool) (fs1 : FS) :
    ((finalize_result env p conv del (Except.ok (), fs1)).1.success
       = fs_exists fs1 conv) ∧
    (fs_exists fs1 conv = false →
      (finalize_result env p conv del (Except.ok (), fs1)).1
        = { original_path := p, converted_path := conv, success := false,
            error_message := "Conversion failed: " ++ conv ++ " was not created." }) := by
  constructor
  · rcases finalize_result_cases env p conv del (Except.ok ()) fs1 with
      ⟨m, hout, hfin⟩ | ⟨hout, hex, hfin⟩ | ⟨hout, hex, hdel, hfin⟩
        | ⟨hout, hex, hdel, hun, hfin⟩ | ⟨hout, hex, hdel, hun, hfin⟩
    · cases hout
    · rw [hfin, hex]
    · rw [hfin, hex]
    · rw [hfin, hex]
    · rw [hfin, hex]
  · intro hex
    rcases finalize_result_cases env p conv del (Except.ok ()) fs1 with
      ⟨m, hout, hfin⟩ | ⟨hout, hex2, hfin⟩ | ⟨hout, hex2, hdel, hfin⟩
        | ⟨hout, hex2, hdel, hun, hfin⟩ | ⟨hout, hex2, hdel, hun, hfin⟩
    · cases hout
    · rw [hfin]
    · rw [hex] at hex2
      simp at hex2
    · rw [hex] at hex2
      simp at hex2
    · rw [hex] at hex2
      simp at hex2

theorem convert_tail_props (env : Env) (fs fs1 : FS) (p conv : String) (del : Bool)
    (out : Except String Unit) (hne : conv ≠ p)
    (hframe : fs_lookup fs1 p = fs_lookup fs p) :
    (del = false →
       fs_lookup (finalize_result env p conv del (out, fs1)).2 p = fs_lookup fs p) ∧
    ((finalize_result env p conv del (out, fs1)).1.success = false →
       fs_lookup (finalize_result env p conv del (out, fs1)).2 p = fs_lookup fs p) ∧
    (fs_lookup (finalize_result env p conv del (out, fs1)).2 p = none →
       fs_lookup fs p = none
         ∨ (del = true ∧ (finalize_result env p conv del (out, fs1)).1.success = true)) ∧
    (del = true → env.unlinkOk = false →
       (finalize_result env p conv del (out, fs1)).1.success = true →
       (finalize_result env p conv del (out, fs1)).1.error_message = env.unlinkErrMsg
         ∧ fs_lookup (finalize_result env p conv del (out, fs1)).2 p = fs_lookup fs p) := by
  rcases finalize_result_cases env p conv del out fs1 with
    ⟨m, hout, hfin⟩ | ⟨hout, hex, hfin⟩ | ⟨hout, hex, hdel, hfin⟩
      | ⟨hout, hex, hdel, hun, hfin⟩ | ⟨hout, hex, hdel, hun, hfin⟩
  · rw [hfin]
    exact ⟨fun _ => hframe, fun _ => hframe,
      fun h => Or.inl (by rw [← hframe]; exact h),
      fun _ _ hs => by simp at hs⟩
  · rw [hfin]
    exact ⟨fun _ => hframe, fun _ => hframe,
      fun h => Or.inl (by rw [← hframe]; exact h),
      fun _ _ hs => by simp at hs⟩
  · rw [hfin]
    refine ⟨fun _ => hframe, fun hs => by simp at hs,
      fun h => Or.inl (by rw [← hframe]; exact h), fun hd2 _ _ => ?_⟩
    rw [hdel] at hd2
    simp at hd2
  · rw [hfin]
    refine ⟨fun hd2 => ?_, fun hs => by simp at hs,
      fun _ => Or.inr ⟨hdel, rfl⟩, fun _ hun2 _ => ?_⟩
    · rw [hdel] at hd2
      simp at hd2
    · rw [hun] at hun2
      simp at hun2
  · rw [hfin]
    refine ⟨fun hd2 => ?_, fun hs => by simp at hs,
      fun h => Or.inl (by rw [← hframe]; exact h), fun _ _ _ => ⟨rfl, hframe⟩⟩
    rw [hdel] at hd2
    simp at hd2

/-- C1 as stated is false: success is not equivalent to post-pack existence
of the output, because a packing exception can leave the output file on disk
while `success` (initialized False and only ever assigned inside the `try`)
stays false.  Concretely, packing `a.cbr` to `a.cbz` fails mid-write leaving
a partial `a.cbz` behind: the result reports failure although the computed
output path exists. -/
theorem C1_counterexample :
    (ArchiveArchiveConverter.convert_file { envGood with packOk := false } fsA
        "a.cbr" "cbz" false).1.success = false
    ∧ fs_exists (ArchiveArchiveConverter.convert_file { envGood with packOk := false }
        fsA "a.cbr" "cbz" false).2 "a.cbz" = true := by
  decide

/-- C1 amended: for both processors, `success = true` only if the computed
output path exists on the returned filesystem (given the output path differs
from the input path); and whenever the conversion step completes without an
exception, `success` equals the post-pack existence check of the output
path, and a missing output yields exactly the
"Conversion failed: <path> was not created." result. -/
theorem C1_success_iff_output_exists_amended :
    (∀ (env : Env) (fs : FS) (p tgt : String) (del : Bool),
      with_suffix p ("." ++ tgt) ≠ p →
      (ArchiveArchiveConverter.convert_file env fs p tgt del).1.success = true →
      fs_exists (ArchiveArchiveConverter.convert_file env fs p tgt del).2
        (with_suffix p ("." ++ tgt)) = true) ∧
    (∀ (env : Env) (fs : FS) (p tgt : String) (del : Bool) (sf : Format) (fs1 : FS),
      fs_detect fs p = some sf →
      ((tgt = "cbz" ∧ sf = Format.CBR) ∨ (tgt = "cbr" ∧ sf = Format.CBZ)) →
      ArchiveArchiveConverter.convert_archive env fs p sf (with_suffix p ("." ++ tgt))
        = (Except.ok (), fs1) →
      ((ArchiveArchiveConverter.convert_file env fs p tgt del).1.success
         = fs_exists fs1 (with_suffix p ("." ++ tgt))) ∧
      (fs_exists fs1 (with_suffix p ("." ++ tgt)) = false →
        (ArchiveArchiveConverter.convert_file env fs p tgt del).1
          = { original_path := p, converted_path := with_suffix p ("." ++ tgt),
              success := false,
              error_message := "Conversion failed: " ++ with_suffix p ("." ++ tgt)
                ++ " was not created." })) ∧
    (∀ (env : Env) (fs : FS) (p tgt : String) (del : Bool),
      with_suffix p ("." ++ strLower tgt) ≠ p →
      (PdfArchiveConverter.convert_file env fs p tgt del).1.success = true →
      fs_exists (PdfArchiveConverter.convert_file env fs p tgt del).2
        (with_suffix p ("." ++ strLower tgt)) = true) ∧
    (∀ (env : Env) (fs : FS) (p tgt : String) (del : Bool) (sf : Format) (fs1 : FS),
      fs_detect fs p = some sf →
      ((strLower tgt = "cbz" ∧ sf.str = "PDF") ∨ (strLower tgt = "pdf" ∧ sf.str = "CBZ")) →
      (if strLower tgt = "cbz" then
        PdfArchiveConverter.convert_pdf_to_cbz env fs p (with_suffix p ("." ++ strLower tgt))
       else
        PdfArchiveConverter.convert_cbz_to_pdf env fs p (with_suffix p ("." ++ strLower tgt)))
        = (Except.ok (), fs1) →
      ((PdfArchiveConverter.convert_file env fs p tgt del).1.success
         = fs_exists fs1 (with_suffix p ("." ++ strLower tgt))) ∧
      (fs_exists fs1 (with_suffix p ("." ++ strLower tgt)) = false →
        (PdfArchiveConverter.convert_file env fs p tgt del).1
          = { original_path := p, converted_path := with_suffix p ("." ++ strLower tgt),
              success := false,
              error_message := "Conversion failed: " ++ with_suffix p ("." ++ strLower tgt)
                ++ " was not created." })) := by
  refine ⟨?_, ?_, ?_, ?_⟩
  · intro env fs p tgt del hne hsucc
    rcases cb_convert_file_cases env fs p tgt del with hcase | ⟨sf, hd, hg, heq⟩
    · rw [hcase] at hsucc
      simp at hsucc
    · rw [heq] at hsucc ⊢
      rcases hstep : ArchiveArchiveConverter.convert_archive env fs p sf
          (with_suffix p ("." ++ tgt)) with ⟨out, fs1⟩
      rw [hstep] at hsucc
      exact finalize_success_exists env p _ del out fs1 hne hsucc
  · intro env fs p tgt del sf fs1 hd hg hstep
    rw [ArchiveArchiveConverter.convert_file, hd]
    dsimp only
    rw [if_pos hg, hstep]
    exact finalize_ok_char env p _ del fs1
  · intro env fs p tgt del hne hsucc
    rcases pdf_convert_file_cases env fs p tgt del with ⟨hd, hcase⟩ | hcase | ⟨sf, hd, hg, heq⟩
    · rw [hcase] at hsucc
      simp at hsucc
    · rw [hcase] at hsucc
      simp at hsucc
    · rw [heq] at hsucc ⊢
      rcases hstep : (if strLower tgt = "cbz" then
          PdfArchiveConverter.convert_pdf_to_cbz env fs p (with_suffix p ("." ++ strLower tgt))
         else
          PdfArchiveConverter.convert_cbz_to_pdf env fs p (with_suffix p ("." ++ strLower tgt)))
        with ⟨out, fs1⟩
      rw [hstep] at hsucc
      exact finalize_success_exists env p _ del out fs1 hne hsucc
  · intro env fs p tgt del sf fs1 hd hg hstep
    rw [PdfArchiveConverter.convert_file, hd]
    dsimp only
    rw [if_pos hg, hstep]
    exact finalize_ok_char env p _ del fs1

theorem C1_witness :
    fs_detect fsA "a.cbr" = some Format.CBR
    ∧ ArchiveArchiveConverter.convert_archive envGood fsA "a.cbr" Format.CBR
        (with_suffix "a.cbr" ("." ++ "cbz"))
      = (Except.ok (), [("a.cbz", FileContent.zipArchive ["1.png", "2.png"]),
                        ("a.cbr", FileContent.rarArchive ["1.png", "2.png"])])
    ∧ (ArchiveArchiveConverter.convert_file envGood fsA "a.cbr" "cbz" false).1.success
      = fs_exists [("a.cbz", FileContent.zipArchive ["1.png", "2.png"]),
                   ("a.cbr", FileContent.rarArchive ["1.png", "2.png"])]
          (with_suffix "a.cbr" ("." ++ "cbz")) :=
  ⟨by decide, by rfl,
   (C1_success_iff_output_exists_amended.2.1 envGood fsA "a.cbr" "cbz" false Format.CBR
     [("a.cbz", FileContent.zipArchive ["1.png", "2.png"]),
      ("a.cbr", FileContent.rarArchive ["1.png", "2.png"])]
     (by decide) (Or.inl ⟨rfl, rfl⟩) (by rfl)).1⟩

/-- C10's last clause is false: a removal failure after a successful
conversion is reported with `success = true` (the flag was assigned before
`unlink`) and the removal error text — distinguishable from a conversion
failure, which carries `success = false`.  Concrete run: converting `a.cbr`
succeeds, deletion of the original is requested and fails. -/
theorem C10_counterexample :
    (ArchiveArchiveConverter.convert_file { envGood with unlinkOk := false } fsA
        "a.cbr" "cbz" true).1
      = { original_path := "a.cbr", converted_path := "a.cbz", success := true,
          error_message := "unlink failed" } := by
  decide

/-- C10 amended: for both processors (with an output path distinct from the
input path): the original's filesystem record is untouched whenever deletion
was not requested or the result is a failure; the original can disappear
only when deletion was requested on a success; and when the removal itself
fails after a successful conversion, the result keeps `success = true` and
carries the removal error text in `error_message` — unlike a conversion
failure, which reports `success = false`. -/
theorem C10_delete_original_amended :
    (∀ (env : Env) (fs : FS) (p tgt : String) (del : Bool),
      with_suffix p ("." ++ tgt) ≠ p →
      ((del = false →
         fs_lookup (ArchiveArchiveConverter.convert_file env fs p tgt del).2 p
           = fs_lookup fs p) ∧
       ((ArchiveArchiveConverter.convert_file env fs p tgt del).1.success = false →
         fs_lookup (ArchiveArchiveConverter.convert_file env fs p tgt del).2 p
           = fs_lookup fs p) ∧
       (fs_lookup (ArchiveArchiveConverter.convert_file env fs p tgt del).2 p = none →
         fs_lookup fs p = none
           ∨ (del = true
              ∧ (ArchiveArchiveConverter.convert_file env fs p tgt del).1.success = true)) ∧
       (del = true → env.unlinkOk = false →
         (ArchiveArchiveConverter.convert_file env fs p tgt del).1.success = true →
         (ArchiveArchiveConverter.convert_file env fs p tgt del).1.error_message
             = env.unlinkErrMsg
           ∧ fs_lookup (ArchiveArchiveConverter.convert_file env fs p tgt del).2 p
             = fs_lookup fs p))) ∧
    (∀ (env : Env) (fs : FS) (p tgt : String) (del : Bool),
      with_suffix p ("." ++ strLower tgt) ≠ p →
      ((del = false →
         fs_lookup (PdfArchiveConverter.convert_file env fs p tgt del).2 p
           = fs_lookup fs p) ∧
       ((PdfArchiveConverter.convert_file env fs p tgt del).1.success = false →
         fs_lookup (PdfArchiveConverter.convert_file env fs p tgt del).2 p
           = fs_lookup fs p) ∧
       (fs_lookup (PdfArchiveConverter.convert_file env fs p tgt del).2 p = none →
         fs_lookup fs p = none
           ∨ (del = true
              ∧ (PdfArchiveConverter.convert_file env fs p tgt del).1.success = true)) ∧
       (del = true → env.unlinkOk = false →
         (PdfArchiveConverter.convert_file env fs p tgt del).1.success = true →
         (PdfArchiveConverter.convert_file env fs p tgt del).1.error_message
             = env.unlinkErrMsg
           ∧ fs_lookup (PdfArchiveConverter.convert_file env fs p tgt del).2 p
             = fs_lookup fs p))) := by
  constructor
  · intro env fs p tgt del hne
    rcases cb_convert_file_cases env fs p tgt del with hcase | ⟨sf, hd, hg, heq⟩
    · rw [hcase]
      exact ⟨fun _ => rfl, fun _ => rfl, fun h => Or.inl h, fun _ _ hs => by simp at hs⟩
    · rw [heq]
      rcases hstep : ArchiveArchiveConverter.convert_archive env fs p sf
          (with_suffix p ("." ++ tgt)) with ⟨out, fs1⟩
      have hframe : fs_lookup fs1 p = fs_lookup fs p := by
        have h2 := cb_convert_archive_frame env fs p sf (with_suffix p ("." ++ tgt)) p
          (fun h => hne h.symm)
        rw [hstep] at h2
        exact h2
      exact convert_tail_props env fs fs1 p _ del out hne hframe
  · intro env fs p tgt del hne
    rcases pdf_convert_file_cases env fs p tgt del with ⟨hd, hcase⟩ | hcase | ⟨sf, hd, hg, heq⟩
    · rw [hcase]
      exact ⟨fun _ => rfl, fun _ => rfl, fun h => Or.inl h, fun _ _ hs => by simp at hs⟩
    · rw [hcase]
      exact ⟨fun _ => rfl, fun _ => rfl, fun h => Or.inl h, fun _ _ hs => by simp at hs⟩
    · rw [heq]
      rcases hstep : (if strLower tgt = "cbz" then
          PdfArchiveConverter.convert_pdf_to_cbz env fs p (with_suffix p ("." ++ strLower tgt))
         else
          PdfArchiveConverter.convert_cbz_to_pdf env fs p (with_suffix p ("." ++ strLower tgt)))
        with ⟨out, fs1⟩
      have hframe : fs_lookup fs1 p = fs_lookup fs p := by
        by_cases hc : strLower tgt = "cbz"
        · rw [if_pos hc] at hstep
          have h2 := pdf_to_cbz_frame env fs p (with_suffix p ("." ++ strLower tgt)) p
            (fun h => hne h.symm)
          rw [hstep] at h2
          exact h2
        · rw [if_neg hc] at hstep
          have h2 := cbz_to_pdf_frame env fs p (with_suffix p ("." ++ strLower tgt)) p
            (fun h => hne h.symm)
          rw [hstep] at h2
          exact h2
      exact convert_tail_props env fs fs1 p _ del out hne hframe

theorem C10_witness :
    with_suffix "a.cbr" ("." ++ "cbz") ≠ "a.cbr"
    ∧ fs_lookup (ArchiveArchiveConverter.convert_file envGood fsA "a.cbr" "cbz" false).2
        "a.cbr"
      = fs_lookup fsA "a.cbr" :=
  ⟨by decide,
   (C10_delete_original_amended.1 envGood fsA "a.cbr" "cbz" false (by decide)).1 rfl⟩

/-- C3: both batch drivers return exactly one ConversionResult per input
path, in input order; the k-th result is exactly the k-th path's own
`convert_file` outcome on the filesystem state reached after the preceding k
files, so a failure at any index (an exception is absorbed inside
`convert_file`, an unsupported conversion yields a failed record) never
prevents the later files from being processed. -/
theorem C3_batch_results_one_per_input :
    (∀ (env : Env) (fs : FS) (paths : List String) (tgt : String) (del : Bool),
      ((ArchiveArchiveConverter.convert_batch env fs paths tgt del).1.length
         = paths.length) ∧
      (∀ (k : Nat) (pk : String), paths.get? k = some pk →
        (ArchiveArchiveConverter.convert_batch env fs paths tgt del).1.get? k
          = some (ArchiveArchiveConverter.convert_file env
              ((ArchiveArchiveConverter.convert_batch env fs (paths.take k) tgt del).2)
              pk tgt del).1)) ∧
    (∀ (env : Env) (fs : FS) (paths : List String) (tgt : String) (del : Bool),
      ((PdfArchiveConverter.convert_batch env fs paths tgt del).1.length
         = paths.length) ∧
      (∀ (k : Nat) (pk : String), paths.get? k = some pk →
        (PdfArchiveConverter.convert_batch env fs paths tgt del).1.get? k
          = some (PdfArchiveConverter.convert_file env
              ((PdfArchiveConverter.convert_batch env fs (paths.take k) tgt del).2)
              pk tgt del).1)) :=
  ⟨fun env fs paths tgt del => cb_convert_batch_results env tgt del paths fs,
   fun env fs paths tgt del => pdf_convert_batch_results env tgt del paths fs⟩

theorem C3_witness :
    (["x.xyz", "a.cbr"].get? 1 = some "a.cbr")
    ∧ (ArchiveArchiveConverter.convert_batch envGood fsA ["x.xyz", "a.cbr"]
        "cbz" false).1.length = 2
    ∧ (ArchiveArchiveConverter.convert_batch envGood fsA ["x.xyz", "a.cbr"]
        "cbz" false).1.get? 1
      = some (ArchiveArchiveConverter.convert_file envGood
          ((ArchiveArchiveConverter.convert_batch envGood fsA
            (["x.xyz", "a.cbr"].take 1) "cbz" false).2) "a.cbr" "cbz" false).1 :=
  ⟨by decide,
   (C3_batch_results_one_per_input.1 envGood fsA ["x.xyz", "a.cbr"] "cbz" false).1,
   (C3_batch_results_one_per_input.1 envGood fsA ["x.xyz", "a.cbr"] "cbz" false).2
     1 "a.cbr" (by decide)⟩
